import Mathlib

/-!
Verification development for the Dire Wolf DNS-SD announcement subsystem
(`dns_sd_common.c`, `dns_sd_avahi.c`, `dns_sd_macos.c`).

C strings are modelled as `List Char` (one entry per byte), nullable C
string pointers as `Option (List Char)`, C `int` as `Int`.  The external
mDNS daemons (Avahi, macOS dns-sd) are modelled as oracles: streams of
result codes consumed by the state machines, plus an abstract
"alternative service name" function `alt : List Char → List Char`
standing in for `avahi_alternative_service_name`.
-/

/-- Avahi `AVAHI_OK`. -/
def AVAHI_OK : Int := 0

/-- Avahi `AVAHI_ERR_COLLISION` (value -8 in avahi-common/error.h). -/
def AVAHI_ERR_COLLISION : Int := -8

/-- `dns_sd_service_t` from dns_sd_common.h: port, channel, and an owned
name pointer (NULL for slots never populated; the array is calloc'ed). -/
structure dns_sd_service_t where
  port : Int
  channel : Int
  name : Option (List Char)
deriving DecidableEq, Repr

/-- An all-zero slot, as produced by `calloc` in `dns_sd_create_context`. -/
def zeroSlot : dns_sd_service_t := { port := 0, channel := 0, name := none }

/-- `struct misc_config_s` restricted to the fields read by this module:
`agwpe_port`, `dns_sd_name`, and the parallel arrays `kiss_port` /
`kiss_chan` of length `MAX_KISS_TCP_PORTS` (the length is carried by the
lists themselves; `config.h` is not part of the excerpt). -/
structure misc_config_s where
  agwpe_port : Int
  dns_sd_name : List Char
  kiss_port : List Int
  kiss_chan : List Int
deriving DecidableEq, Repr

/-- `MAX_KISS_TCP_PORTS` for a given configuration (array length). -/
def MAX_KISS_TCP_PORTS (mc : misc_config_s) : Nat := mc.kiss_port.length

/-- `MAX_DNS_SD_SERVICES = 1 + MAX_KISS_TCP_PORTS` (dns_sd_common.h). -/
def MAX_DNS_SD_SERVICES (mc : misc_config_s) : Nat := 1 + MAX_KISS_TCP_PORTS mc

/-- `dns_sd_service_count` from dns_sd_common.c: number of non-zero
AGWPE and KISS TCP ports. -/
def dns_sd_service_count (mc : misc_config_s) : Nat :=
  (if mc.agwpe_port ≠ 0 then 1 else 0) + mc.kiss_port.countP (fun p => p != 0)

/-- BSD `strlcpy(dst, src, size)`: the resulting string content
(at most `size - 1` characters, NUL-terminated). -/
def strlcpyS (src : List Char) (size : Nat) : List Char := src.take (size - 1)

/-- BSD `strlcat(dst, src, size)`: appends `src` to `dst`, keeping the
total content length at most `size - 1`. -/
def strlcatS (dst src : List Char) (size : Nat) : List Char :=
  dst ++ src.take (size - 1 - dst.length)

/-- The `" channel %i"` segment written by `snprintf(temp, sizeof(temp), ...)`
into the 64-byte `temp` buffer (content truncated at 63 characters). -/
def chanSeg (channel : Int) : List Char :=
  (" channel ".data ++ (toString channel).data).take 63

/-- The `" on %s"` segment written by `snprintf(temp, sizeof(temp), ...)`
into the 64-byte `temp` buffer (content truncated at 63 characters). -/
def hostSeg (hostname : List Char) : List Char :=
  (" on ".data ++ hostname).take 63

/-- `make_service_name` from dns_sd_common.c.  The `sname` buffer is 128
bytes, so all content is kept at or below 127 characters. -/
def make_service_name (basename hostname : List Char) (channel : Int) : List Char :=
  let s1 := if basename ≠ [] then strlcpyS basename 128 else "Dire Wolf".data
  let s2 := if channel ≠ -1 then strlcatS s1 (chanSeg channel) 128 else s1
  if hostname ≠ [] then strlcatS s2 (hostSeg hostname) 128 else s2

/-- The KISS slots populated by the loop in `dns_sd_create_context`
(entries `ctx[1..]`, one per non-zero `kiss_port[i]`, placed
consecutively). -/
def kiss_services (mc : misc_config_s) (hostname : List Char) : List dns_sd_service_t :=
  (mc.kiss_port.zip mc.kiss_chan).filterMap fun pc =>
    if pc.1 ≠ 0 then
      some { port := pc.1, channel := pc.2,
             name := some (make_service_name mc.dns_sd_name hostname pc.2) }
    else none

/-- `dns_sd_create_context` from dns_sd_common.c.  `hostname` is the
(already domain-stripped) result of `gethostname`, an environment input.
The array is calloc'ed to `MAX_DNS_SD_SERVICES` all-zero slots; slot 0
is the AGWPE slot, slots 1.. are the configured KISS slots. -/
def dns_sd_create_context (mc : misc_config_s) (hostname : List Char) :
    List dns_sd_service_t :=
  let s0 := if mc.agwpe_port ≠ 0 then
      { port := mc.agwpe_port, channel := -1,
        name := some (make_service_name mc.dns_sd_name hostname (-1)) }
    else zeroSlot
  let ks := kiss_services mc hostname
  s0 :: (ks ++ List.replicate (MAX_KISS_TCP_PORTS mc - ks.length) zeroSlot)

/-- Loop body of `rename_all_services`: a slot with a non-NULL name gets
`avahi_alternative_service_name` (here: `alt`) applied; a NULL-named
slot is skipped. -/
def renameSlot (alt : List Char → List Char) (s : dns_sd_service_t) :
    dns_sd_service_t :=
  match s.name with
  | some n => { s with name := some (alt n) }
  | none => s

/-- `rename_all_services` from dns_sd_avahi.c: apply `renameSlot` to all
`MAX_DNS_SD_SERVICES` slots. -/
def rename_all_services (alt : List Char → List Char)
    (ctx : List dns_sd_service_t) : List dns_sd_service_t :=
  ctx.map (renameSlot alt)

/-! ## Avahi backend (variant A)

The daemon is an oracle: `avahi_entry_group_add_service` results are a
stream of `Int` codes consumed one per call; `avahi_entry_group_new`
success and the `avahi_entry_group_commit` result are oracle fields.
Every daemon interaction is recorded in a trace of `AvahiEv` events. -/

/-- Observable daemon interactions of the Avahi backend. -/
inductive AvahiEv where
  | add (idx : Nat) (name : List Char) (result : Int)
  | groupNew (ok : Bool)
  | groupReset
  | commit (result : Int)
  | term
deriving DecidableEq, Repr

/-- The Avahi globals of dns_sd_avahi.c: `simple_poll` (with its quit
flag), `client`, `group` (with its emptiness), and the service context.
`group = some b` means the entry group exists and `b` is its emptiness. -/
structure AvahiSt where
  simplePoll : Option Bool
  client : Bool
  group : Option Bool
  ctx : List dns_sd_service_t
deriving DecidableEq, Repr

/-- Daemon oracle for one `create_services` round. -/
structure AvahiOracle where
  groupNewOk : Bool
  addResponses : List Int
  commitResult : Int
deriving Repr

/-- `dns_sd_term` from dns_sd_avahi.c: request the simple poll to quit
if it exists; otherwise do nothing. -/
def dns_sd_term (st : AvahiSt) : AvahiSt :=
  match st.simplePoll with
  | some _ => { st with simplePoll := some true }
  | none => st

/-- `create_service` from dns_sd_avahi.c: the add / rename-on-collision
loop for a single slot.  Consumes one oracle response per
`avahi_entry_group_add_service` call; `none` means the oracle stream ran
out mid-loop.  Returns the final error code, the updated slot, the
remaining responses, and the trace of add calls. -/
def create_service (alt : List Char → List Char) (idx : Nat) :
    List Int → dns_sd_service_t →
    Option (Int × dns_sd_service_t × List Int × List AvahiEv)
  | [], _ => none
  | r :: rest, s =>
    if r = AVAHI_ERR_COLLISION then
      match create_service alt idx rest { s with name := s.name.map alt } with
      | none => none
      | some (e, s', rem, evs) =>
        some (e, s', rem, AvahiEv.add idx (s.name.getD []) r :: evs)
    else
      some (r, s, rest, [AvahiEv.add idx (s.name.getD []) r])

/-- The slot loop of `create_services`: add each slot with non-zero port
in order (index `i` onward), breaking out on the first non-`AVAHI_OK`
result from `create_service`.  Slots after the break are untouched. -/
def add_all (alt : List Char → List Char) :
    List Int → Nat → List dns_sd_service_t →
    Option (Int × List dns_sd_service_t × List Int × List AvahiEv)
  | resp, _, [] => some (AVAHI_OK, [], resp, [])
  | resp, i, s :: ss =>
    if s.port = 0 then
      match add_all alt resp (i + 1) ss with
      | none => none
      | some (e, ss', rem, evs) => some (e, s :: ss', rem, evs)
    else
      match create_service alt i resp s with
      | none => none
      | some (e, s', rem, evs) =>
        if e = AVAHI_OK then
          match add_all alt rem (i + 1) ss with
          | none => none
          | some (e2, ss2, rem2, evs2) => some (e2, s' :: ss2, rem2, evs ++ evs2)
        else
          some (e, s' :: ss, rem, evs)

/-- Whether an event is a successful `avahi_entry_group_add_service`. -/
def isOkAdd : AvahiEv → Bool
  | AvahiEv.add _ _ r => r == AVAHI_OK
  | _ => false

/-- The part of `create_services` after the group exists: the
`avahi_entry_group_is_empty` check, the add loop, and the commit.
`evs0` is the trace of the preceding group creation / reset. -/
def create_services_addPhase (alt : List Char → List Char) (o : AvahiOracle)
    (st : AvahiSt) (evs0 : List AvahiEv) : Option (AvahiSt × List AvahiEv) :=
  if st.group = some true then
    match add_all alt o.addResponses 0 st.ctx with
    | none => none
    | some (e, ctx', _, evs) =>
      let st1 := { st with group := some (!evs.any isOkAdd), ctx := ctx' }
      if e ≠ AVAHI_OK then
        some (dns_sd_term st1, evs0 ++ evs ++ [AvahiEv.term])
      else if o.commitResult ≠ AVAHI_OK then
        some (dns_sd_term st1, evs0 ++ evs ++ [AvahiEv.commit o.commitResult, AvahiEv.term])
      else
        some (st1, evs0 ++ evs ++ [AvahiEv.commit o.commitResult])
  else
    some (st, evs0)

/-- `create_services` from dns_sd_avahi.c: create the entry group if
needed (calling `dns_sd_term` and bailing out if that fails), reset it
if it already exists, then add every configured slot and commit.  A
failed add or commit triggers `dns_sd_term`. -/
def create_services (alt : List Char → List Char) (o : AvahiOracle)
    (st : AvahiSt) : Option (AvahiSt × List AvahiEv) :=
  match st.group with
  | none =>
    if o.groupNewOk then
      create_services_addPhase alt o { st with group := some true }
        [AvahiEv.groupNew true]
    else
      some (dns_sd_term st, [AvahiEv.groupNew false, AvahiEv.term])
  | some _ =>
    create_services_addPhase alt o { st with group := some true }
      [AvahiEv.groupReset]

/-- `AvahiEntryGroupState` values seen by `entry_group_callback`. -/
inductive AvahiEntryGroupState where
  | established | collision | failure | uncommitted | registering
deriving DecidableEq, Repr

/-- `entry_group_callback` from dns_sd_avahi.c.  ESTABLISHED and the
transient states only log; COLLISION renames every service and recreates
the group via `create_services`; FAILURE calls `dns_sd_term`. -/
def entry_group_callback (alt : List Char → List Char) (o : AvahiOracle)
    (state : AvahiEntryGroupState) (st : AvahiSt) :
    Option (AvahiSt × List AvahiEv) :=
  match state with
  | AvahiEntryGroupState.collision =>
    create_services alt o { st with ctx := rename_all_services alt st.ctx }
  | AvahiEntryGroupState.failure => some (dns_sd_term st, [AvahiEv.term])
  | _ => some (st, [])

/-- Setup oracle for `dns_sd_announce`: whether `avahi_simple_poll_new`
and `avahi_client_new` succeed. -/
structure AnnOracle where
  pollOk : Bool
  clientOk : Bool
deriving Repr

/-- The observable outcome of `dns_sd_announce` (Avahi variant): final
globals, which resources were created, whether the worker thread was
started, and whether `cleanup` freed the context on the failure path. -/
structure AnnResult where
  st : AvahiSt
  contextCreated : Bool
  pollCreated : Bool
  clientCreated : Bool
  threadStarted : Bool
  ctxFreed : Bool
deriving DecidableEq, Repr

/-- The all-NULL initial globals of dns_sd_avahi.c. -/
def initAvahiSt : AvahiSt :=
  { simplePoll := none, client := false, group := none, ctx := [] }

/-- `dns_sd_announce` from dns_sd_avahi.c, up to the start of the worker
thread.  (The avahi_strdup reallocation loop copies each name unchanged
and is identity in this model.)  If `dns_sd_service_count` is zero it
returns before creating anything; on poll or client setup failure it
runs `cleanup` on the freshly built context and starts no thread. -/
def dns_sd_announce (mc : misc_config_s) (hostname : List Char)
    (o : AnnOracle) : AnnResult :=
  if dns_sd_service_count mc = 0 then
    { st := initAvahiSt, contextCreated := false, pollCreated := false,
      clientCreated := false, threadStarted := false, ctxFreed := false }
  else
    let ctx := dns_sd_create_context mc hostname
    if ¬o.pollOk then
      { st := initAvahiSt, contextCreated := true, pollCreated := false,
        clientCreated := false, threadStarted := false, ctxFreed := true }
    else if ¬o.clientOk then
      { st := initAvahiSt, contextCreated := true, pollCreated := true,
        clientCreated := false, threadStarted := false, ctxFreed := true }
    else
      { st := { simplePoll := some false, client := true, group := none, ctx := ctx },
        contextCreated := true, pollCreated := true, clientCreated := true,
        threadStarted := true, ctxFreed := false }

/-! ## macOS backend (variant B) -/

/-- The macOS globals of dns_sd_macos.c relevant to `dns_sd_term`:
whether the stop pipe was ever created (`stop_fd[1] != -1`), whether it
is still open, and the pipe contents. -/
structure MacosSt where
  stopFdCreated : Bool
  stopFdOpen : Bool
  pipeBuf : List Int
deriving DecidableEq, Repr

/-- `dns_sd_term` from dns_sd_macos.c: write to the stop pipe if
`stop_fd[1] != -1`.  A `write` on an already-closed descriptor fails
with EBADF; its return value is ignored, so the state is unchanged. -/
def macos_dns_sd_term (st : MacosSt) : MacosSt :=
  if st.stopFdCreated then
    if st.stopFdOpen then { st with pipeBuf := st.pipeBuf ++ [1] } else st
  else st

/-- The observable outcome of `dns_sd_announce` (macOS variant):
the indices for which `DNSServiceRegister` was called, in call order;
the `sd_ref` handle table (a handle is modelled by its slot index); and
whether the event thread was started.  `regErr i` is the synchronous
result of the registration call for slot `i`. -/
structure MacResult where
  registerCalls : List Nat
  sd_ref : List (Option Nat)
  threadStarted : Bool
deriving DecidableEq, Repr

/-- `dns_sd_announce` from dns_sd_macos.c: one `DNSServiceRegister` call
per slot with a non-zero port; the returned handle is stored in
`svcs->sd_ref[i]` only when the call itself returns
`kDNSServiceErr_NoError` (0); a synchronous failure is logged and the
slot is skipped.  The calloc'ed handle table starts all-NULL. -/
def macos_dns_sd_announce (mc : misc_config_s) (hostname : List Char)
    (regErr : Nat → Int) : MacResult :=
  if dns_sd_service_count mc = 0 then
    { registerCalls := [], sd_ref := [], threadStarted := false }
  else
    let ctx := dns_sd_create_context mc hostname
    { registerCalls :=
        (List.range ctx.length).filter (fun i => (ctx.getD i zeroSlot).port ≠ 0),
      sd_ref :=
        (List.range ctx.length).map (fun i =>
          if (ctx.getD i zeroSlot).port ≠ 0 ∧ regErr i = 0 then some i else none),
      threadStarted := true }

/-! ## Basic lemmas -/

/-- The invariant relating a slot's name pointer and its port. -/
def slotInv (s : dns_sd_service_t) : Prop := s.name.isSome ↔ s.port ≠ 0

/-- Number of active (non-zero-port) slots. -/
def countActive (ss : List dns_sd_service_t) : Nat :=
  ss.countP (fun s => s.port != 0)

theorem renameSlot_zero (alt : List Char → List Char) :
    renameSlot alt zeroSlot = zeroSlot := rfl

theorem rename_all_getD (alt : List Char → List Char)
    (ctx : List dns_sd_service_t) (j : Nat) :
    (rename_all_services alt ctx).getD j zeroSlot =
      renameSlot alt (ctx.getD j zeroSlot) := by
  simp only [rename_all_services, List.getD_eq_getElem?_getD, List.getElem?_map]
  cases ctx[j]? with
  | none => rfl
  | some s => rfl

theorem renameSlot_port (alt : List Char → List Char) (s : dns_sd_service_t) :
    (renameSlot alt s).port = s.port := by
  cases h : s.name <;> simp [renameSlot, h]

theorem renameSlot_channel (alt : List Char → List Char) (s : dns_sd_service_t) :
    (renameSlot alt s).channel = s.channel := by
  cases h : s.name <;> simp [renameSlot, h]

theorem renameSlot_name (alt : List Char → List Char) (s : dns_sd_service_t) :
    (renameSlot alt s).name = s.name.map alt := by
  cases h : s.name <;> simp [renameSlot, h]

/-- Every slot built by `dns_sd_create_context` satisfies `slotInv`. -/
theorem slotInv_create (mc : misc_config_s) (hostname : List Char) :
    ∀ s ∈ dns_sd_create_context mc hostname, slotInv s := by
  intro s hs
  simp only [dns_sd_create_context, List.mem_cons, List.mem_append] at hs
  rcases hs with h0 | hks | hrep
  · subst h0
    by_cases ha : mc.agwpe_port ≠ 0 <;> simp [slotInv, ha, zeroSlot]
  · simp only [kiss_services, List.mem_filterMap] at hks
    obtain ⟨pc, _, hpc⟩ := hks
    by_cases hp : pc.1 ≠ 0
    · rw [if_pos hp] at hpc
      cases hpc
      simpa [slotInv] using hp
    · rw [if_neg hp] at hpc
      cases hpc
  · rw [List.eq_of_mem_replicate hrep]
    simp [slotInv, zeroSlot]

theorem slotInv_zeroSlot : slotInv zeroSlot := by simp [slotInv, zeroSlot]

/-! ## Claim C9 -/

/-- Claim C9: for every basename, hostname, and channel input,
`make_service_name` produces a name whose length is strictly below the
fixed 128-byte buffer size (so content plus NUL terminator always fits):
each appended segment is length-checked (`strlcpy`/`strlcat`/`snprintf`)
and over-long components are truncated rather than overflowing. -/
theorem make_service_name_bounded (basename hostname : List Char) (channel : Int) :
    (make_service_name basename hostname channel).length < 128 := by
  have key : ∀ dst src : List Char, dst.length ≤ 127 →
      (strlcatS dst src 128).length ≤ 127 := by
    intro dst src h
    simp only [strlcatS, List.length_append, List.length_take]
    omega
  have main : ∀ s1 : List Char, s1.length ≤ 127 →
      ((if hostname ≠ [] then
          strlcatS (if channel ≠ -1 then strlcatS s1 (chanSeg channel) 128 else s1)
            (hostSeg hostname) 128
        else (if channel ≠ -1 then strlcatS s1 (chanSeg channel) 128
          else s1))).length ≤ 127 := by
    intro s1 h1
    have h2 : ((if channel ≠ -1 then strlcatS s1 (chanSeg channel) 128
        else s1)).length ≤ 127 := by
      split
      · exact key _ _ h1
      · exact h1
    split
    · exact key _ _ h2
    · exact h2
  have h1 : (if basename ≠ [] then strlcpyS basename 128
      else "Dire Wolf".data).length ≤ 127 := by
    split
    · simp only [strlcpyS, List.length_take]
      omega
    · decide
  have h3 := main _ h1
  have heq : make_service_name basename hostname channel =
      (if hostname ≠ [] then
        strlcatS (if channel ≠ -1 then
            strlcatS (if basename ≠ [] then strlcpyS basename 128
              else "Dire Wolf".data) (chanSeg channel) 128
          else (if basename ≠ [] then strlcpyS basename 128
            else "Dire Wolf".data)) (hostSeg hostname) 128
      else (if channel ≠ -1 then
          strlcatS (if basename ≠ [] then strlcpyS basename 128
            else "Dire Wolf".data) (chanSeg channel) 128
        else (if basename ≠ [] then strlcpyS basename 128
          else "Dire Wolf".data))) := rfl
  rw [heq]
  omega

theorem getD_mem_of_lt {α : Type} (l : List α) (d : α) {j : Nat}
    (hj : j < l.length) : l.getD j d ∈ l := by
  rw [List.getD_eq_getElem?_getD, List.getElem?_eq_getElem hj]
  exact List.getElem_mem hj

/-! ## Claim C5 -/

/-- Claim C5: `rename_all_services` applied to a batch (satisfying the
name/port invariant that all batches of this program satisfy) replaces
the name of every active slot with the next candidate name `alt` and
leaves every inert slot (`port = 0`) completely unchanged; ports and
channels of all slots are unchanged. -/
theorem rename_all_services_frame (alt : List Char → List Char)
    (ctx : List dns_sd_service_t) (hinv : ∀ s ∈ ctx, slotInv s) :
    (rename_all_services alt ctx).length = ctx.length ∧
    ∀ j : Nat,
      ((rename_all_services alt ctx).getD j zeroSlot).port =
        (ctx.getD j zeroSlot).port ∧
      ((rename_all_services alt ctx).getD j zeroSlot).channel =
        (ctx.getD j zeroSlot).channel ∧
      ((ctx.getD j zeroSlot).port = 0 →
        (rename_all_services alt ctx).getD j zeroSlot = ctx.getD j zeroSlot) ∧
      ((ctx.getD j zeroSlot).port ≠ 0 →
        ∃ n, (ctx.getD j zeroSlot).name = some n ∧
          ((rename_all_services alt ctx).getD j zeroSlot).name = some (alt n)) := by
  constructor
  · simp [rename_all_services]
  · intro j
    rw [rename_all_getD]
    have hinvj : slotInv (ctx.getD j zeroSlot) := by
      by_cases hj : j < ctx.length
      · exact hinv _ (getD_mem_of_lt ctx zeroSlot hj)
      · rw [List.getD_eq_default _ _ (Nat.le_of_not_lt hj)]
        exact slotInv_zeroSlot
    simp only [slotInv] at hinvj
    generalize ctx.getD j zeroSlot = s at hinvj ⊢
    cases hname : s.name with
    | none =>
      have hz : s.port = 0 := by
        rw [hname] at hinvj
        by_contra hc
        exact absurd (hinvj.mpr hc) (by simp)
      refine ⟨renameSlot_port _ _, renameSlot_channel _ _, ?_, ?_⟩
      · intro _
        simp [renameSlot, hname]
      · intro hc
        exact absurd hz hc
    | some n =>
      have hp : s.port ≠ 0 := hinvj.mp (by simp [hname])
      refine ⟨renameSlot_port _ _, renameSlot_channel _ _, ?_, ?_⟩
      · intro hz
        exact absurd hz hp
      · intro _
        exact ⟨n, rfl, by simp [renameSlot, hname]⟩

/-- A concrete sample `alt` function. -/
def altX : List Char → List Char := fun n => 'x' :: n

/-- Witness for C5 at a concrete two-slot batch (one active, one inert). -/
theorem rename_all_services_frame_witness :
    (rename_all_services altX [⟨8000, -1, some ['a']⟩, zeroSlot]).length = 2 ∧
    ∀ j : Nat,
      ((rename_all_services altX [⟨8000, -1, some ['a']⟩, zeroSlot]).getD j
          zeroSlot).port =
        (([⟨8000, -1, some ['a']⟩, zeroSlot] :
            List dns_sd_service_t).getD j zeroSlot).port ∧
      ((rename_all_services altX [⟨8000, -1, some ['a']⟩, zeroSlot]).getD j
          zeroSlot).channel =
        (([⟨8000, -1, some ['a']⟩, zeroSlot] :
            List dns_sd_service_t).getD j zeroSlot).channel ∧
      ((([⟨8000, -1, some ['a']⟩, zeroSlot] :
            List dns_sd_service_t).getD j zeroSlot).port = 0 →
        (rename_all_services altX [⟨8000, -1, some ['a']⟩, zeroSlot]).getD j
            zeroSlot =
          (([⟨8000, -1, some ['a']⟩, zeroSlot] :
              List dns_sd_service_t).getD j zeroSlot)) ∧
      ((([⟨8000, -1, some ['a']⟩, zeroSlot] :
            List dns_sd_service_t).getD j zeroSlot).port ≠ 0 →
        ∃ n, (([⟨8000, -1, some ['a']⟩, zeroSlot] :
            List dns_sd_service_t).getD j zeroSlot).name = some n ∧
          ((rename_all_services altX [⟨8000, -1, some ['a']⟩, zeroSlot]).getD j
              zeroSlot).name = some (altX n)) := by
  have h2 : ∀ s ∈ ([⟨8000, -1, some ['a']⟩, zeroSlot] :
      List dns_sd_service_t), slotInv s := by
    intro s hs
    simp only [List.mem_cons, List.mem_singleton] at hs
    rcases hs with h | h | h
    · subst h; simp [slotInv]
    · subst h; exact slotInv_zeroSlot
    · cases h
  exact rename_all_services_frame altX [⟨8000, -1, some ['a']⟩, zeroSlot] h2

/-! ## Claim C10 -/

/-- Claim C10: for every slot index of the batch returned by
`dns_sd_create_context`, the name is non-null iff the port is non-zero
(inert slots are all-zero from `calloc`), and `rename_all_services`
preserves this equivalence: it never writes to `port` and maps non-null
names to non-null names (and NULL to NULL). -/
theorem slot_name_port_invariant :
    (∀ (mc : misc_config_s) (hostname : List Char) (j : Nat),
      slotInv ((dns_sd_create_context mc hostname).getD j zeroSlot)) ∧
    (∀ (alt : List Char → List Char) (ctx : List dns_sd_service_t) (j : Nat),
      ((rename_all_services alt ctx).getD j zeroSlot).port =
        (ctx.getD j zeroSlot).port ∧
      ((rename_all_services alt ctx).getD j zeroSlot).name.isSome =
        (ctx.getD j zeroSlot).name.isSome) := by
  constructor
  · intro mc hostname j
    by_cases hj : j < (dns_sd_create_context mc hostname).length
    · exact slotInv_create mc hostname _ (getD_mem_of_lt _ zeroSlot hj)
    · rw [List.getD_eq_default _ _ (Nat.le_of_not_lt hj)]
      exact slotInv_zeroSlot
  · intro alt ctx j
    rw [rename_all_getD]
    refine ⟨renameSlot_port _ _, ?_⟩
    rw [renameSlot_name]
    cases (ctx.getD j zeroSlot).name <;> rfl

/-! ## Claim C2: the per-slot collision retry loop -/

/-- Characterization of one `create_service` run: it consumes some
leading collisions and one final non-collision response. -/
theorem create_service_spec (alt : List Char → List Char) (idx : Nat) :
    ∀ (resp : List Int) (s : dns_sd_service_t) (e : Int)
      (s' : dns_sd_service_t) (rem : List Int) (evs : List AvahiEv),
      create_service alt idx resp s = some (e, s', rem, evs) →
      e ≠ AVAHI_ERR_COLLISION ∧
      ∃ k : Nat,
        resp = List.replicate k AVAHI_ERR_COLLISION ++ e :: rem ∧
        s'.port = s.port ∧ s'.channel = s.channel ∧
        s'.name = s.name.map (fun n => alt^[k] n) ∧
        evs.length = k + 1 := by
  intro resp
  induction resp with
  | nil =>
    intro s e s' rem evs h
    exact absurd h (by simp [create_service])
  | cons r rest ih =>
    intro s e s' rem evs h
    rw [create_service] at h
    by_cases hr : r = AVAHI_ERR_COLLISION
    · rw [if_pos hr] at h
      cases hrec : create_service alt idx rest { s with name := s.name.map alt } with
      | none => rw [hrec] at h; cases h
      | some v =>
        obtain ⟨e1, s1, rem1, evs1⟩ := v
        rw [hrec] at h
        simp only [Option.some.injEq, Prod.mk.injEq] at h
        obtain ⟨he, hs, hrem, hevs⟩ := h
        obtain ⟨hne, k, hresp, hport, hchan, hname, hlen⟩ :=
          ih { s with name := s.name.map alt } e1 s1 rem1 evs1 hrec
        subst he hs hrem
        refine ⟨hne, k + 1, ?_, hport, hchan, ?_, ?_⟩
        · rw [List.replicate_succ, List.cons_append, hr, hresp]
        · rw [hname]
          cases s.name with
          | none => rfl
          | some n => simp [Function.iterate_succ_apply]
        · rw [← hevs]
          simp [hlen]
    · rw [if_neg hr] at h
      simp only [Option.some.injEq, Prod.mk.injEq] at h
      obtain ⟨he, hs, hrem, hevs⟩ := h
      subst he hs hrem
      refine ⟨hr, 0, by simp, rfl, rfl, ?_, by rw [← hevs]; rfl⟩
      cases s.name <;> rfl

/-- Frame property of the slot loop: each slot's port and channel are
unchanged, and its final name is obtained by iterating `alt` on its own
initial name only. -/
theorem add_all_frame (alt : List Char → List Char) :
    ∀ (ss : List dns_sd_service_t) (resp : List Int) (i : Nat) (e : Int)
      (ss' : List dns_sd_service_t) (rem : List Int) (evs : List AvahiEv),
      add_all alt resp i ss = some (e, ss', rem, evs) →
      ss'.length = ss.length ∧
      ∀ j : Nat,
        (ss'.getD j zeroSlot).port = (ss.getD j zeroSlot).port ∧
        (ss'.getD j zeroSlot).channel = (ss.getD j zeroSlot).channel ∧
        ∃ k : Nat, (ss'.getD j zeroSlot).name =
          (ss.getD j zeroSlot).name.map (fun n => alt^[k] n) := by
  intro ss
  induction ss with
  | nil =>
    intro resp i e ss' rem evs h
    rw [add_all] at h
    simp only [Option.some.injEq, Prod.mk.injEq] at h
    obtain ⟨_, hss, _, _⟩ := h
    subst hss
    exact ⟨rfl, fun j => ⟨rfl, rfl, 0, by cases (([] : List dns_sd_service_t).getD j zeroSlot).name <;> rfl⟩⟩
  | cons s ss ih =>
    intro resp i e ss' rem evs h
    rw [add_all] at h
    have step : ∀ (s1 : dns_sd_service_t) (tl tl' : List dns_sd_service_t),
        tl'.length = tl.length →
        (∀ j : Nat, (tl'.getD j zeroSlot).port = (tl.getD j zeroSlot).port ∧
          (tl'.getD j zeroSlot).channel = (tl.getD j zeroSlot).channel ∧
          ∃ k : Nat, (tl'.getD j zeroSlot).name =
            (tl.getD j zeroSlot).name.map (fun n => alt^[k] n)) →
        s1.port = s.port → s1.channel = s.channel →
        (∃ k : Nat, s1.name = s.name.map (fun n => alt^[k] n)) →
        (s1 :: tl').length = (s :: tl).length ∧
        ∀ j : Nat, ((s1 :: tl').getD j zeroSlot).port =
            ((s :: tl).getD j zeroSlot).port ∧
          ((s1 :: tl').getD j zeroSlot).channel =
            ((s :: tl).getD j zeroSlot).channel ∧
          ∃ k : Nat, ((s1 :: tl').getD j zeroSlot).name =
            ((s :: tl).getD j zeroSlot).name.map (fun n => alt^[k] n) := by
      intro s1 tl tl' hlen hall hp hc hn
      refine ⟨by simp [hlen], ?_⟩
      intro j
      cases j with
      | zero => exact ⟨hp, hc, hn⟩
      | succ j => exact hall j
    by_cases hz : s.port = 0
    · rw [if_pos hz] at h
      cases hrec : add_all alt resp (i + 1) ss with
      | none => rw [hrec] at h; cases h
      | some v =>
        obtain ⟨e1, ss1, rem1, evs1⟩ := v
        rw [hrec] at h
        simp only [Option.some.injEq, Prod.mk.injEq] at h
        obtain ⟨he, hss, hrem, hevs⟩ := h
        subst he hss hrem
        obtain ⟨hlen, hall⟩ := ih resp (i + 1) e1 ss1 rem1 evs1 hrec
        exact step s ss ss1 hlen hall rfl rfl
          ⟨0, by cases s.name <;> rfl⟩
    · rw [if_neg hz] at h
      cases hcs : create_service alt i resp s with
      | none => rw [hcs] at h; cases h
      | some v =>
        obtain ⟨e1, s1, rem1, evs1⟩ := v
        rw [hcs] at h
        obtain ⟨-, k1, -, hport, hchan, hname, -⟩ :=
          create_service_spec alt i resp s e1 s1 rem1 evs1 hcs
        dsimp only at h
        by_cases he1 : e1 = AVAHI_OK
        · rw [if_pos he1] at h
          cases hrec : add_all alt rem1 (i + 1) ss with
          | none => rw [hrec] at h; cases h
          | some v2 =>
            obtain ⟨e2, ss2, rem2, evs2⟩ := v2
            rw [hrec] at h
            simp only [Option.some.injEq, Prod.mk.injEq] at h
            obtain ⟨he, hss, hrem, hevs⟩ := h
            subst he hss hrem
            obtain ⟨hlen, hall⟩ := ih rem1 (i + 1) e2 ss2 rem2 evs2 hrec
            exact step s1 ss ss2 hlen hall hport hchan ⟨k1, hname⟩
        · rw [if_neg he1] at h
          simp only [Option.some.injEq, Prod.mk.injEq] at h
          obtain ⟨he, hss, hrem, hevs⟩ := h
          subst he hss hrem
          exact step s1 ss ss rfl
            (fun j => ⟨rfl, rfl, 0, by cases (ss.getD j zeroSlot).name <;> rfl⟩)
            hport hchan ⟨k1, hname⟩

/-- Claim C2: in variant A, registration adds slots one at a time in
batch order; whenever a single `avahi_entry_group_add_service` call
returns `AVAHI_ERR_COLLISION`, only that slot's name is replaced by a
new candidate (`alt`) and the same add is retried, looping until the add
is accepted or returns a non-collision error (the returned code is never
`AVAHI_ERR_COLLISION`, and the consumed responses are exactly `k`
collisions followed by the final code, the slot's name having `alt`
applied `k` times); and no other slot's name is modified by a per-add
collision: across the whole `add_all` loop each slot's port and channel
are unchanged and its final name derives from its own initial name
only. -/
theorem per_add_collision_renames_only_that_slot :
    (∀ (alt : List Char → List Char) (idx : Nat) (resp : List Int)
        (s : dns_sd_service_t) (e : Int) (s' : dns_sd_service_t)
        (rem : List Int) (evs : List AvahiEv),
      create_service alt idx resp s = some (e, s', rem, evs) →
      e ≠ AVAHI_ERR_COLLISION ∧
      ∃ k : Nat,
        resp = List.replicate k AVAHI_ERR_COLLISION ++ e :: rem ∧
        s'.port = s.port ∧ s'.channel = s.channel ∧
        s'.name = s.name.map (fun n => alt^[k] n) ∧
        evs.length = k + 1) ∧
    (∀ (alt : List Char → List Char) (ss : List dns_sd_service_t)
        (resp : List Int) (i : Nat) (e : Int)
        (ss' : List dns_sd_service_t) (rem : List Int) (evs : List AvahiEv),
      add_all alt resp i ss = some (e, ss', rem, evs) →
      ss'.length = ss.length ∧
      ∀ j : Nat,
        (ss'.getD j zeroSlot).port = (ss.getD j zeroSlot).port ∧
        (ss'.getD j zeroSlot).channel = (ss.getD j zeroSlot).channel ∧
        ∃ k : Nat, (ss'.getD j zeroSlot).name =
          (ss.getD j zeroSlot).name.map (fun n => alt^[k] n)) :=
  ⟨fun alt idx => create_service_spec alt idx, fun alt => add_all_frame alt⟩

/-- Witness for C2: one collision then acceptance at a concrete slot. -/
theorem per_add_collision_witness :
    (5 : Int) ≠ AVAHI_ERR_COLLISION ∧
    ∃ k : Nat,
      ([-8, 5] : List Int) =
        List.replicate k AVAHI_ERR_COLLISION ++ (5 : Int) :: ([] : List Int) ∧
      (⟨1, 2, some ['x', 'a']⟩ : dns_sd_service_t).port =
        (⟨1, 2, some ['a']⟩ : dns_sd_service_t).port ∧
      (⟨1, 2, some ['x', 'a']⟩ : dns_sd_service_t).channel =
        (⟨1, 2, some ['a']⟩ : dns_sd_service_t).channel ∧
      (⟨1, 2, some ['x', 'a']⟩ : dns_sd_service_t).name =
        ((⟨1, 2, some ['a']⟩ : dns_sd_service_t)).name.map
          (fun n => altX^[k] n) ∧
      ([AvahiEv.add 0 ['a'] (-8), AvahiEv.add 0 ['x', 'a'] 5] :
        List AvahiEv).length = k + 1 :=
  per_add_collision_renames_only_that_slot.1 altX 0 [-8, 5]
    ⟨1, 2, some ['a']⟩ 5 ⟨1, 2, some ['x', 'a']⟩ []
    [AvahiEv.add 0 ['a'] (-8), AvahiEv.add 0 ['x', 'a'] 5] (by decide)

/-! ## Claim C1: group-level collision recovery -/

/-- The add events produced by the slot loop when every add succeeds. -/
def okAddEvents : Nat → List dns_sd_service_t → List AvahiEv
  | _, [] => []
  | i, s :: ss =>
    if s.port = 0 then okAddEvents (i + 1) ss
    else AvahiEv.add i (s.name.getD []) AVAHI_OK :: okAddEvents (i + 1) ss

theorem countActive_nil : countActive [] = 0 := rfl

theorem countActive_cons (s : dns_sd_service_t) (ss : List dns_sd_service_t) :
    countActive (s :: ss) =
      countActive ss + (if s.port = 0 then 0 else 1) := by
  simp only [countActive, List.countP_cons]
  by_cases hz : s.port = 0 <;> simp [hz]

theorem countActive_rename (alt : List Char → List Char)
    (ctx : List dns_sd_service_t) :
    countActive (rename_all_services alt ctx) = countActive ctx := by
  induction ctx with
  | nil => rfl
  | cons s ss ih =>
    simp only [rename_all_services, List.map_cons] at ih ⊢
    rw [countActive_cons, countActive_cons, ih, renameSlot_port]

/-- When the oracle accepts every add, the slot loop succeeds, leaves
the batch unchanged, and emits one successful add per active slot. -/
theorem add_all_allOk (alt : List Char → List Char) :
    ∀ (ss : List dns_sd_service_t) (resp : List Int) (i : Nat),
      (∀ r ∈ resp, r = AVAHI_OK) → countActive ss ≤ resp.length →
      add_all alt resp i ss =
        some (AVAHI_OK, ss, resp.drop (countActive ss), okAddEvents i ss) := by
  intro ss
  induction ss with
  | nil =>
    intro resp i _ _
    rw [add_all, countActive_nil, List.drop_zero, okAddEvents]
  | cons s ss ih =>
    intro resp i hok hlen
    rw [countActive_cons] at hlen ⊢
    by_cases hz : s.port = 0
    · rw [add_all, if_pos hz, ih resp (i + 1) hok (by omega), okAddEvents, if_pos hz]
      simp [hz]
    · cases resp with
      | nil =>
        rw [if_neg hz] at hlen
        simp at hlen
      | cons r rest =>
        have hr : r = AVAHI_OK := hok r (by simp)
        subst hr
        have hrest : ∀ x ∈ rest, x = AVAHI_OK := fun x hx => hok x (by simp [hx])
        have hrlen : countActive ss ≤ rest.length := by
          rw [if_neg hz] at hlen
          simp only [List.length_cons] at hlen
          omega
        rw [add_all, if_neg hz, create_service, if_neg (by decide)]
        dsimp only
        rw [if_pos rfl, ih rest (i + 1) hrest hrlen]
        dsimp only
        rw [okAddEvents, if_neg hz, if_neg hz]
        simp [List.drop_succ_cons]

/-- Every active slot contributes a successful add event. -/
theorem okAddEvents_mem :
    ∀ (ss : List dns_sd_service_t) (i j : Nat), j < ss.length →
      (ss.getD j zeroSlot).port ≠ 0 →
      AvahiEv.add (i + j) ((ss.getD j zeroSlot).name.getD []) AVAHI_OK ∈
        okAddEvents i ss := by
  intro ss
  induction ss with
  | nil =>
    intro i j hj _
    simp at hj
  | cons s ss ih =>
    intro i j hj hp
    cases j with
    | zero =>
      simp only [List.getD_cons_zero] at hp ⊢
      rw [okAddEvents, if_neg hp]
      simp
    | succ j =>
      simp only [List.getD_cons_succ] at hp ⊢
      have hj' : j < ss.length := by simpa using hj
      have hmem := ih (i + 1) j hj' hp
      have harith : i + 1 + j = i + (j + 1) := by omega
      rw [harith] at hmem
      rw [okAddEvents]
      by_cases hz : s.port = 0
      · rw [if_pos hz]
        exact hmem
      · rw [if_neg hz]
        exact List.mem_cons_of_mem _ hmem

/-- The add-and-commit phase when the daemon accepts everything. -/
theorem addPhase_allOk (alt : List Char → List Char) (o : AvahiOracle)
    (st : AvahiSt) (evs0 : List AvahiEv) (hgroup : st.group = some true)
    (hok : ∀ r ∈ o.addResponses, r = AVAHI_OK)
    (hlen : countActive st.ctx ≤ o.addResponses.length)
    (hc : o.commitResult = AVAHI_OK) :
    create_services_addPhase alt o st evs0 =
      some ({ st with group := some (!(okAddEvents 0 st.ctx).any isOkAdd) },
        evs0 ++ okAddEvents 0 st.ctx ++ [AvahiEv.commit AVAHI_OK]) := by
  unfold create_services_addPhase
  rw [if_pos hgroup, add_all_allOk alt st.ctx o.addResponses 0 hok hlen]
  dsimp only
  rw [if_neg (by simp), hc, if_neg (by simp)]

/-- Claim C1: in the group-oriented backend, a group-level COLLISION
notification in `entry_group_callback` invokes `rename_all_services`
(so every active slot receives a fresh candidate name — each slot's name
becomes `alt` of its previous name) and then performs a full
reset-and-recreate of the entry group: the trace is exactly a group
reset, one successful re-add for every active slot, and a re-commit,
all within the single callback invocation (no caller intervention).
The oracle hypotheses say the daemon accepts the recreated group. -/
theorem entry_group_collision_renames_and_recreates
    (alt : List Char → List Char) (o : AvahiOracle) (st : AvahiSt) (b : Bool)
    (hg : st.group = some b)
    (hok : ∀ r ∈ o.addResponses, r = AVAHI_OK)
    (hlen : countActive st.ctx ≤ o.addResponses.length)
    (hc : o.commitResult = AVAHI_OK) :
    entry_group_callback alt o AvahiEntryGroupState.collision st =
      some ({ st with
              group := some (!(okAddEvents 0
                (rename_all_services alt st.ctx)).any isOkAdd),
              ctx := rename_all_services alt st.ctx },
        AvahiEv.groupReset ::
          (okAddEvents 0 (rename_all_services alt st.ctx) ++
            [AvahiEv.commit AVAHI_OK])) ∧
    (∀ j : Nat, ((rename_all_services alt st.ctx).getD j zeroSlot).name =
      ((st.ctx).getD j zeroSlot).name.map alt) ∧
    (∀ j : Nat, j < st.ctx.length → ((st.ctx).getD j zeroSlot).port ≠ 0 →
      AvahiEv.add j
          (((rename_all_services alt st.ctx).getD j zeroSlot).name.getD [])
          AVAHI_OK ∈
        AvahiEv.groupReset ::
          (okAddEvents 0 (rename_all_services alt st.ctx) ++
            [AvahiEv.commit AVAHI_OK])) := by
  refine ⟨?_, ?_, ?_⟩
  · rw [entry_group_callback, create_services]
    have hg' : ({ st with ctx := rename_all_services alt st.ctx } : AvahiSt).group
        = some b := hg
    rw [hg']
    dsimp only
    have hlen' : countActive (rename_all_services alt st.ctx) ≤
        o.addResponses.length := by
      rw [countActive_rename]
      exact hlen
    rw [addPhase_allOk alt o _ _ rfl hok hlen' hc]
    rfl
  · intro j
    rw [rename_all_getD, renameSlot_name]
  · intro j hj hp
    have hj' : j < (rename_all_services alt st.ctx).length := by
      simpa [rename_all_services] using hj
    have hp' : ((rename_all_services alt st.ctx).getD j zeroSlot).port ≠ 0 := by
      rw [rename_all_getD, renameSlot_port]
      exact hp
    have := okAddEvents_mem (rename_all_services alt st.ctx) 0 j hj' hp'
    rw [Nat.zero_add] at this
    exact List.mem_cons_of_mem _ (List.mem_append_left _ this)

/-- A concrete two-active-slot state for exercising the group callback. -/
def egcSt : AvahiSt :=
  { simplePoll := some false, client := true, group := some false,
    ctx := [⟨1, -1, some ['a']⟩, ⟨2, 0, some ['b']⟩] }

/-- A concrete cooperative oracle: both re-adds and the commit succeed. -/
def egcOracle : AvahiOracle :=
  { groupNewOk := true, addResponses := [0, 0], commitResult := 0 }

/-- Witness for C1 at the concrete state `egcSt`. -/
theorem entry_group_collision_witness :
    entry_group_callback altX egcOracle AvahiEntryGroupState.collision egcSt =
      some ({ egcSt with
              group := some (!(okAddEvents 0
                (rename_all_services altX egcSt.ctx)).any isOkAdd),
              ctx := rename_all_services altX egcSt.ctx },
        AvahiEv.groupReset ::
          (okAddEvents 0 (rename_all_services altX egcSt.ctx) ++
            [AvahiEv.commit AVAHI_OK])) ∧
    ((rename_all_services altX egcSt.ctx).getD 0 zeroSlot).name =
      ((egcSt.ctx).getD 0 zeroSlot).name.map altX ∧
    AvahiEv.add 1
        (((rename_all_services altX egcSt.ctx).getD 1 zeroSlot).name.getD [])
        AVAHI_OK ∈
      AvahiEv.groupReset ::
        (okAddEvents 0 (rename_all_services altX egcSt.ctx) ++
          [AvahiEv.commit AVAHI_OK]) := by
  have h := entry_group_collision_renames_and_recreates altX egcOracle egcSt
    false rfl (by decide) (by decide) rfl
  exact ⟨h.1, h.2.1 0, h.2.2 1 (by decide) (by decide)⟩

/-! ## Claim C3: non-collision add error aborts the round -/

/-- The add events emitted when the first `m` active slots are accepted
and the next active slot fails with code `bad`. -/
def addEventsFail : Nat → Nat → Int → List dns_sd_service_t → List AvahiEv
  | _, _, _, [] => []
  | i, m, bad, s :: ss =>
    if s.port = 0 then addEventsFail (i + 1) m bad ss
    else
      match m with
      | 0 => [AvahiEv.add i (s.name.getD []) bad]
      | k + 1 =>
        AvahiEv.add i (s.name.getD []) AVAHI_OK :: addEventsFail (i + 1) k bad ss

/-- If the oracle accepts `m` adds and then returns a non-collision,
non-OK code, the slot loop stops at the failing slot: the batch is
returned unchanged and no slot after the failing one is added. -/
theorem add_all_failAt (alt : List Char → List Char) (bad : Int)
    (rest : List Int) (hbad0 : bad ≠ AVAHI_OK)
    (hbadc : bad ≠ AVAHI_ERR_COLLISION) :
    ∀ (ss : List dns_sd_service_t) (m i : Nat), m < countActive ss →
      add_all alt (List.replicate m AVAHI_OK ++ bad :: rest) i ss =
        some (bad, ss, rest, addEventsFail i m bad ss) := by
  intro ss
  induction ss with
  | nil =>
    intro m i hm
    rw [countActive_nil] at hm
    omega
  | cons s ss ih =>
    intro m i hm
    rw [countActive_cons] at hm
    by_cases hz : s.port = 0
    · rw [if_pos hz] at hm
      conv_rhs => rw [addEventsFail.eq_def]
      rw [add_all, if_pos hz, ih m (i + 1) (by omega)]
      dsimp only
      rw [if_pos hz]
    · rw [if_neg hz] at hm
      cases m with
      | zero =>
        rw [List.replicate_zero, List.nil_append, add_all, if_neg hz,
          create_service, if_neg hbadc]
        dsimp only
        rw [if_neg hbad0, addEventsFail.eq_def]
        dsimp only
        rw [if_neg hz]
      | succ k =>
        rw [List.replicate_succ, List.cons_append, add_all, if_neg hz,
          create_service, if_neg (by decide)]
        dsimp only
        rw [if_pos rfl, ih k (i + 1) (by omega)]
        conv_rhs => rw [addEventsFail.eq_def]
        dsimp only
        rw [if_neg hz]
        simp

theorem addEventsFail_no_commit (bad : Int) :
    ∀ (ss : List dns_sd_service_t) (i m : Nat) (r : Int),
      AvahiEv.commit r ∉ addEventsFail i m bad ss := by
  intro ss
  induction ss with
  | nil =>
    intro i m r
    simp [addEventsFail]
  | cons s ss ih =>
    intro i m r
    rw [addEventsFail.eq_def]
    dsimp only
    by_cases hz : s.port = 0
    · rw [if_pos hz]
      exact ih (i + 1) m r
    · rw [if_neg hz]
      cases m with
      | zero => simp
      | succ k =>
        simp only [List.mem_cons]
        rintro (h | h)
        · cases h
        · exact ih (i + 1) k r h

theorem addEventsFail_length (bad : Int) :
    ∀ (ss : List dns_sd_service_t) (i m : Nat), m < countActive ss →
      (addEventsFail i m bad ss).length = m + 1 := by
  intro ss
  induction ss with
  | nil =>
    intro i m hm
    rw [countActive_nil] at hm
    omega
  | cons s ss ih =>
    intro i m hm
    rw [countActive_cons] at hm
    rw [addEventsFail.eq_def]
    dsimp only
    by_cases hz : s.port = 0
    · rw [if_pos hz] at hm
      rw [if_pos hz]
      exact ih i.succ m (by omega)
    · rw [if_neg hz] at hm
      rw [if_neg hz]
      cases m with
      | zero => rfl
      | succ k =>
        simp only [List.length_cons]
        rw [ih (i + 1) k (by omega)]

/-- The add-and-commit phase when an add fails with a non-OK code. -/
theorem addPhase_fail (alt : List Char → List Char) (o : AvahiOracle)
    (st : AvahiSt) (evs0 evsF : List AvahiEv) (bad : Int) (rest : List Int)
    (hgroup : st.group = some true)
    (hadd : add_all alt o.addResponses 0 st.ctx = some (bad, st.ctx, rest, evsF))
    (hbad0 : bad ≠ AVAHI_OK) :
    create_services_addPhase alt o st evs0 =
      some (dns_sd_term { st with group := some (!evsF.any isOkAdd) },
        evs0 ++ evsF ++ [AvahiEv.term]) := by
  unfold create_services_addPhase
  rw [if_pos hgroup, hadd]
  dsimp only
  rw [if_pos hbad0]

theorem dns_sd_term_of_poll (st : AvahiSt) (q : Bool)
    (h : st.simplePoll = some q) :
    dns_sd_term st = { st with simplePoll := some true } := by
  rw [dns_sd_term, h]

/-- Claim C3: in variant A, if adding any slot fails with a
non-collision error (`m` active slots accepted, then code `bad`), the
remaining slots are not added (the add trace has exactly `m + 1`
entries: the accepted adds and the failing one, and the batch is
returned unchanged), `avahi_entry_group_commit` is never invoked in the
round (no commit event in the trace), and the session is terminated:
`dns_sd_term` runs (term event, simple poll quit requested). -/
theorem non_collision_error_aborts_batch (alt : List Char → List Char)
    (o : AvahiOracle) (st : AvahiSt) (b q : Bool) (m : Nat) (bad : Int)
    (rest : List Int)
    (hg : st.group = some b) (hsp : st.simplePoll = some q)
    (hresp : o.addResponses = List.replicate m AVAHI_OK ++ bad :: rest)
    (hbad0 : bad ≠ AVAHI_OK) (hbadc : bad ≠ AVAHI_ERR_COLLISION)
    (hm : m < countActive st.ctx) :
    create_services alt o st =
      some ({ st with
              simplePoll := some true,
              group := some (!(addEventsFail 0 m bad st.ctx).any isOkAdd) },
        AvahiEv.groupReset ::
          (addEventsFail 0 m bad st.ctx ++ [AvahiEv.term])) ∧
    (∀ r : Int, AvahiEv.commit r ∉
      AvahiEv.groupReset :: (addEventsFail 0 m bad st.ctx ++ [AvahiEv.term])) ∧
    (addEventsFail 0 m bad st.ctx).length = m + 1 ∧
    AvahiEv.term ∈
      AvahiEv.groupReset :: (addEventsFail 0 m bad st.ctx ++ [AvahiEv.term]) := by
  refine ⟨?_, ?_, addEventsFail_length bad st.ctx 0 m hm, by simp⟩
  · rw [create_services, hg]
    dsimp only
    have hadd : add_all alt o.addResponses 0 st.ctx =
        some (bad, st.ctx, rest, addEventsFail 0 m bad st.ctx) := by
      rw [hresp]
      exact add_all_failAt alt bad rest hbad0 hbadc st.ctx m 0 hm
    rw [addPhase_fail alt o
      { simplePoll := st.simplePoll, client := st.client, group := some true, ctx := st.ctx }
      [AvahiEv.groupReset] (addEventsFail 0 m bad st.ctx) bad rest rfl hadd hbad0]
    dsimp only
    rw [dns_sd_term_of_poll { simplePoll := st.simplePoll, client := st.client, group := some (!(addEventsFail 0 m bad st.ctx).any isOkAdd), ctx := st.ctx } q hsp]
    rfl
  · intro r hmem
    rcases List.mem_cons.mp hmem with h | h
    · cases h
    · rcases List.mem_append.mp h with h2 | h2
      · exact addEventsFail_no_commit bad st.ctx 0 m r h2
      · rcases List.mem_cons.mp h2 with h3 | h3
        · cases h3
        · exact List.not_mem_nil _ h3

/-- Witness for C3: first add accepted, second fails with code -1. -/
theorem non_collision_error_witness :
    create_services altX ⟨true, [0, -1], 0⟩ egcSt =
      some ({ egcSt with
              simplePoll := some true,
              group := some (!(addEventsFail 0 1 (-1) egcSt.ctx).any isOkAdd) },
        AvahiEv.groupReset ::
          (addEventsFail 0 1 (-1) egcSt.ctx ++ [AvahiEv.term])) ∧
    (∀ r : Int, AvahiEv.commit r ∉
      AvahiEv.groupReset ::
        (addEventsFail 0 1 (-1) egcSt.ctx ++ [AvahiEv.term])) ∧
    (addEventsFail 0 1 (-1) egcSt.ctx).length = 1 + 1 ∧
    AvahiEv.term ∈
      AvahiEv.groupReset ::
        (addEventsFail 0 1 (-1) egcSt.ctx ++ [AvahiEv.term]) :=
  non_collision_error_aborts_batch altX ⟨true, [0, -1], 0⟩ egcSt false false 1
    (-1) [] rfl rfl (by decide) (by decide) (by decide) (by decide)

/-! ## Claim C6: announce is a no-op with nothing to announce -/

/-- Claim C6: whenever `dns_sd_service_count` is zero (no non-zero AGWPE
or KISS ports), `dns_sd_announce` returns immediately: no batch context,
poll object, or client connection is created, no worker thread is
started, and the globals stay in their initial all-NULL state, for every
setup oracle. -/
theorem announce_noop_when_no_services (mc : misc_config_s)
    (hostname : List Char) (o : AnnOracle)
    (h : dns_sd_service_count mc = 0) :
    dns_sd_announce mc hostname o =
      { st := initAvahiSt, contextCreated := false, pollCreated := false,
        clientCreated := false, threadStarted := false, ctxFreed := false } := by
  rw [dns_sd_announce, if_pos h]

/-- Witness for C6 at a concrete all-zero configuration. -/
theorem announce_noop_witness :
    dns_sd_announce ⟨0, [], [0, 0, 0], [1, 2, 3]⟩ "myhost".data ⟨true, true⟩ =
      { st := initAvahiSt, contextCreated := false, pollCreated := false,
        clientCreated := false, threadStarted := false, ctxFreed := false } :=
  announce_noop_when_no_services ⟨0, [], [0, 0, 0], [1, 2, 3]⟩ "myhost".data
    ⟨true, true⟩ (by decide)

/-! ## Claim C7: dns_sd_term is safe in every session state -/

/-- Claim C7: `dns_sd_term` is safe in every session state, in both
backends.  Avahi variant: if `announce` was never called or the session
already tore down (`simple_poll == NULL`) the call is a no-op; in all
states it only sets the poll quit flag — client, group, and batch are
untouched, no teardown is performed by the caller — and it is
idempotent.  macOS variant: if the stop pipe was never created
(`stop_fd[1] == -1`) the call is a no-op; if the pipe was already closed
by the finished worker the failed `write` leaves the state unchanged;
otherwise only the pipe contents change.  (Being a pure state update
that performs no teardown and no wait is the model of
"non-blocking".) -/
theorem term_safe_in_all_states :
    (∀ st : AvahiSt, st.simplePoll = none → dns_sd_term st = st) ∧
    (∀ st : AvahiSt,
      (dns_sd_term st).client = st.client ∧
      (dns_sd_term st).group = st.group ∧
      (dns_sd_term st).ctx = st.ctx) ∧
    (∀ st : AvahiSt, dns_sd_term (dns_sd_term st) = dns_sd_term st) ∧
    (∀ st : MacosSt, st.stopFdCreated = false → macos_dns_sd_term st = st) ∧
    (∀ st : MacosSt, st.stopFdCreated = true → st.stopFdOpen = false →
      macos_dns_sd_term st = st) ∧
    (∀ st : MacosSt,
      (macos_dns_sd_term st).stopFdCreated = st.stopFdCreated ∧
      (macos_dns_sd_term st).stopFdOpen = st.stopFdOpen) := by
  refine ⟨?_, ?_, ?_, ?_, ?_, ?_⟩
  · intro st h
    rw [dns_sd_term, h]
  · intro st
    cases h : st.simplePoll <;> simp [dns_sd_term, h]
  · intro st
    cases h : st.simplePoll <;> simp [dns_sd_term, h]
  · intro st h
    rw [macos_dns_sd_term, h]
    simp
  · intro st h1 h2
    rw [macos_dns_sd_term, if_pos h1, if_neg (by rw [h2]; simp)]
  · intro st
    rw [macos_dns_sd_term]
    by_cases h1 : st.stopFdCreated
    · rw [if_pos h1]
      by_cases h2 : st.stopFdOpen
      · rw [if_pos h2]
        exact ⟨rfl, rfl⟩
      · rw [if_neg h2]
        exact ⟨rfl, rfl⟩
    · rw [if_neg h1]
      exact ⟨rfl, rfl⟩

/-- Witness for C7: concrete never-announced and already-stopped
states. -/
theorem term_safe_witness :
    dns_sd_term initAvahiSt = initAvahiSt ∧
    macos_dns_sd_term ⟨false, false, []⟩ = ⟨false, false, []⟩ ∧
    macos_dns_sd_term ⟨true, false, [1]⟩ = ⟨true, false, [1]⟩ :=
  ⟨term_safe_in_all_states.1 initAvahiSt rfl,
   term_safe_in_all_states.2.2.2.1 ⟨false, false, []⟩ rfl,
   term_safe_in_all_states.2.2.2.2.1 ⟨true, false, [1]⟩ rfl rfl⟩

/-! ## Claim C8: macOS per-service registration -/

theorem count_filter_range (p : Nat → Bool) :
    ∀ (n i : Nat), ((List.range n).filter p).count i =
      if p i = true ∧ i < n then 1 else 0 := by
  intro n
  induction n with
  | zero =>
    intro i
    simp
  | succ n ih =>
    intro i
    rw [List.range_succ, List.filter_append, List.count_append, ih i]
    have h2 : (List.filter p [n]).count i =
        if p n = true ∧ i = n then 1 else 0 := by
      by_cases hn : p n = true
      · by_cases hin : i = n <;>
          simp [List.filter_cons, hn, hin, List.count_cons]
      · simp [List.filter_cons, hn]
    rw [h2]
    by_cases hin : i = n
    · subst hin
      by_cases hp : p i = true <;> simp [hp, Nat.lt_irrefl, Nat.lt_succ_self]
    · have h3 : ¬(p n = true ∧ i = n) := fun hc => hin hc.2
      rw [if_neg h3]
      by_cases hp : p i = true
      · have hiff : i < n ↔ i < n + 1 := by omega
        simp [hp, hiff]
      · simp [hp]

theorem getD_map_range {α : Type} (f : Nat → α) (n i : Nat) (d : α) :
    ((List.range n).map f).getD i d = if i < n then f i else d := by
  rw [List.getD_eq_getElem?_getD, List.getElem?_map]
  by_cases hi : i < n
  · rw [List.getElem?_range hi, if_pos hi]
    rfl
  · rw [List.getElem?_eq_none (by simpa using Nat.le_of_not_lt hi), if_neg hi]
    rfl

/-- Claim C8: in the per-service backend, `dns_sd_announce` issues
exactly one `DNSServiceRegister` call per active slot (in particular it
never retries a slot), stores the resulting handle in `sd_ref[i]` iff
the call itself returns `kDNSServiceErr_NoError` synchronously (on
synchronous failure the entry stays NULL), issues no call and keeps a
NULL entry for inert slots, and starts the event thread. -/
theorem macos_announce_per_slot (mc : misc_config_s) (hostname : List Char)
    (regErr : Nat → Int) (h : dns_sd_service_count mc ≠ 0) :
    (macos_dns_sd_announce mc hostname regErr).threadStarted = true ∧
    ∀ i : Nat,
      (((dns_sd_create_context mc hostname).getD i zeroSlot).port ≠ 0 →
        (macos_dns_sd_announce mc hostname regErr).registerCalls.count i = 1 ∧
        ((macos_dns_sd_announce mc hostname regErr).sd_ref.getD i none = some i
          ↔ regErr i = 0)) ∧
      (((dns_sd_create_context mc hostname).getD i zeroSlot).port = 0 →
        i ∉ (macos_dns_sd_announce mc hostname regErr).registerCalls ∧
        (macos_dns_sd_announce mc hostname regErr).sd_ref.getD i none = none) := by
  rw [macos_dns_sd_announce, if_neg h]
  dsimp only
  constructor
  · rfl
  intro i
  constructor
  · intro hp
    have hlt : i < (dns_sd_create_context mc hostname).length := by
      by_contra hge
      rw [List.getD_eq_default _ _ (Nat.le_of_not_lt hge)] at hp
      exact hp rfl
    constructor
    · rw [count_filter_range]
      rw [if_pos ⟨decide_eq_true hp, hlt⟩]
    · rw [getD_map_range, if_pos hlt]
      constructor
      · intro hsome
        by_contra hne
        rw [if_neg (fun hc => hne hc.2)] at hsome
        cases hsome
      · intro h0
        rw [if_pos ⟨hp, h0⟩]
  · intro hp
    constructor
    · intro hmem
      have := List.mem_filter.mp hmem
      simp only [decide_eq_true_eq] at this
      exact this.2 hp
    · rw [getD_map_range]
      by_cases hlt : i < (dns_sd_create_context mc hostname).length
      · rw [if_pos hlt, if_neg (fun hc => hc.1 hp)]
      · rw [if_neg hlt]

/-- A concrete configuration: AGWPE on 8000, one KISS port on 8001
(channel 5), one unused KISS slot. -/
def mcW : misc_config_s := ⟨8000, [], [8001, 0], [5, 0]⟩

/-- A concrete synchronous-registration oracle: slot 1 fails, others
succeed. -/
def regErrW : Nat → Int := fun i => if i = 1 then 7 else 0

/-- Witness for C8 at `mcW`: slot 1 is registered once but fails
synchronously, so its handle entry stays empty; slot 2 is inert. -/
theorem macos_announce_witness :
    (macos_dns_sd_announce mcW "h".data regErrW).threadStarted = true ∧
    (macos_dns_sd_announce mcW "h".data regErrW).registerCalls.count 1 = 1 ∧
    ((macos_dns_sd_announce mcW "h".data regErrW).sd_ref.getD 1 none = some 1
      ↔ regErrW 1 = 0) ∧
    2 ∉ (macos_dns_sd_announce mcW "h".data regErrW).registerCalls ∧
    (macos_dns_sd_announce mcW "h".data regErrW).sd_ref.getD 2 none = none := by
  have h := macos_announce_per_slot mcW "h".data regErrW (by decide)
  exact ⟨h.1, ((h.2 1).1 (by decide)).1, ((h.2 1).1 (by decide)).2,
    ((h.2 2).2 (by decide)).1, ((h.2 2).2 (by decide)).2⟩

/-! ## Claim C4: batch shape and name distinctness -/

/-- The names of the active (non-zero-port) slots, in slot order. -/
def activeNames (ctx : List dns_sd_service_t) : List (List Char) :=
  ctx.filterMap fun s => if s.port ≠ 0 then s.name else none

/-- The channels of the configured (non-zero-port) KISS slots, in slot
order. -/
def active_kiss_channels (mc : misc_config_s) : List Int :=
  (mc.kiss_port.zip mc.kiss_chan).filterMap fun pc =>
    if pc.1 ≠ 0 then some pc.2 else none

/-- Counterexample to C4 as stated: with one KISS port configured on
the default channel (-1, "all channels"), the KISS slot gets exactly
the same name as the AGWPE slot, so the active names are not pairwise
distinct.  (The same happens for two KISS ports on one channel.) -/
theorem create_context_names_not_distinct :
    ¬ (activeNames (dns_sd_create_context
        ⟨8000, [], [8001], [-1]⟩ "myhost".data)).Nodup := by
  decide

theorem countP_zip_fst (p : Int → Bool) :
    ∀ (l1 l2 : List Int), l1.length = l2.length →
      (l1.zip l2).countP (fun pc => p pc.1) = l1.countP p := by
  intro l1
  induction l1 with
  | nil =>
    intro l2 h
    rfl
  | cons a l1 ih =>
    intro l2 h
    cases l2 with
    | nil => simp at h
    | cons b l2 =>
      simp only [List.zip_cons_cons, List.countP_cons]
      rw [ih l2 (by simpa using h)]

theorem countP_replicate {α : Type} (p : α → Bool) (a : α) :
    ∀ n : Nat, (List.replicate n a).countP p = if p a = true then n else 0 := by
  intro n
  induction n with
  | zero => simp
  | succ n ih =>
    rw [List.replicate_succ, List.countP_cons, ih]
    by_cases hp : p a = true <;> simp [hp]

/-- Length of the KISS slot list: one slot per non-zero KISS port. -/
theorem kiss_services_length (mc : misc_config_s) (hostname : List Char)
    (hlen : mc.kiss_chan.length = mc.kiss_port.length) :
    (kiss_services mc hostname).length =
      mc.kiss_port.countP (fun p => p != 0) := by
  rw [kiss_services]
  rw [show mc.kiss_port.countP (fun p => p != 0) =
      (mc.kiss_port.zip mc.kiss_chan).countP (fun pc => pc.1 != 0) from
    (countP_zip_fst (fun p => p != 0) mc.kiss_port mc.kiss_chan hlen.symm).symm]
  generalize mc.kiss_port.zip mc.kiss_chan = l
  induction l with
  | nil => rfl
  | cons pc l ih =>
    rw [List.filterMap_cons, List.countP_cons]
    by_cases hp : pc.1 ≠ 0
    · rw [if_pos hp]
      simp only [List.length_cons, ih]
      have : (pc.1 != 0) = true := by simpa using hp
      rw [this]
      simp
    · rw [if_neg hp]
      have : (pc.1 != 0) = false := by simpa using hp
      rw [ih, this]
      simp

/-- Every KISS slot is active with a non-null name. -/
theorem kiss_services_active (mc : misc_config_s) (hostname : List Char) :
    ∀ s ∈ kiss_services mc hostname, s.port ≠ 0 ∧ s.name.isSome := by
  intro s hs
  rw [kiss_services] at hs
  obtain ⟨pc, _, hpc⟩ := List.mem_filterMap.mp hs
  by_cases hp : pc.1 ≠ 0
  · rw [if_pos hp] at hpc
    cases hpc
    exact ⟨hp, rfl⟩
  · rw [if_neg hp] at hpc
    cases hpc

theorem countP_eq_length_of_all {α : Type} (p : α → Bool) :
    ∀ l : List α, (∀ a ∈ l, p a = true) → l.countP p = l.length := by
  intro l
  induction l with
  | nil => intro _; rfl
  | cons a l ih =>
    intro h
    rw [List.countP_cons, ih (fun x hx => h x (List.mem_cons_of_mem a hx)),
      h a (List.mem_cons_self a l)]
    simp

/-- The base segment of a service name: the configured basename, or the
product default when none is configured. -/
def baseOf (basename : List Char) : List Char :=
  if basename ≠ [] then basename else "Dire Wolf".data

/-- Shape of the name-builder pipeline when nothing is truncated. -/
theorem mkname_shape (s1 hostname : List Char) (channel : Int)
    (h1 : s1.length ≤ 40) (hh : hostname.length ≤ 50)
    (hch : (toString channel).data.length ≤ 11) :
    (if hostname ≠ [] then
        strlcatS (if channel ≠ -1 then strlcatS s1 (chanSeg channel) 128 else s1)
          (hostSeg hostname) 128
      else (if channel ≠ -1 then strlcatS s1 (chanSeg channel) 128 else s1)) =
      s1 ++
        (if channel ≠ -1 then " channel ".data ++ (toString channel).data
          else []) ++
        (if hostname ≠ [] then " on ".data ++ hostname else []) := by
  have h9 : (" channel ".data).length = 9 := by decide
  have h4 : (" on ".data).length = 4 := by decide
  have hchan : chanSeg channel = " channel ".data ++ (toString channel).data := by
    rw [chanSeg]
    apply List.take_of_length_le
    rw [List.length_append, h9]
    omega
  have hhost : hostSeg hostname = " on ".data ++ hostname := by
    rw [hostSeg]
    apply List.take_of_length_le
    rw [List.length_append, h4]
    omega
  have hs2 : (if channel ≠ -1 then strlcatS s1 (chanSeg channel) 128 else s1) =
      s1 ++ (if channel ≠ -1 then
        " channel ".data ++ (toString channel).data else []) := by
    split
    · rw [strlcatS, hchan]
      congr 1
      apply List.take_of_length_le
      rw [List.length_append, h9]
      omega
    · simp
  rw [hs2]
  have hs2len : (s1 ++ (if channel ≠ -1 then
      " channel ".data ++ (toString channel).data else [])).length ≤ 61 := by
    rw [List.length_append]
    split
    · rw [List.length_append, h9]
      omega
    · simp
      omega
  split
  · rw [strlcatS, hhost]
    congr 1
    apply List.take_of_length_le
    rw [List.length_append, h4]
    omega
  · simp

/-- `make_service_name` without truncation: base, channel segment,
host segment, plainly concatenated. -/
theorem make_service_name_untrunc (basename hostname : List Char)
    (channel : Int) (hb : basename.length ≤ 40) (hh : hostname.length ≤ 50)
    (hch : (toString channel).data.length ≤ 11) :
    make_service_name basename hostname channel =
      baseOf basename ++
        (if channel ≠ -1 then " channel ".data ++ (toString channel).data
          else []) ++
        (if hostname ≠ [] then " on ".data ++ hostname else []) := by
  have hbase : (if basename ≠ [] then strlcpyS basename 128
      else "Dire Wolf".data) = baseOf basename := by
    rw [baseOf]
    split
    · rw [strlcpyS]
      exact List.take_of_length_le (by omega)
    · rfl
  have hblen : (baseOf basename).length ≤ 40 := by
    rw [baseOf]
    split
    · exact hb
    · decide
  have heq : make_service_name basename hostname channel =
      (if hostname ≠ [] then
        strlcatS (if channel ≠ -1 then
            strlcatS (if basename ≠ [] then strlcpyS basename 128
              else "Dire Wolf".data) (chanSeg channel) 128
          else (if basename ≠ [] then strlcpyS basename 128
            else "Dire Wolf".data)) (hostSeg hostname) 128
      else (if channel ≠ -1 then
          strlcatS (if basename ≠ [] then strlcpyS basename 128
            else "Dire Wolf".data) (chanSeg channel) 128
        else (if basename ≠ [] then strlcpyS basename 128
          else "Dire Wolf".data))) := rfl
  rw [heq, hbase]
  exact mkname_shape (baseOf basename) hostname channel hblen hh hch

theorem activeNames_replicate (n : Nat) :
    activeNames (List.replicate n zeroSlot) = [] := by
  induction n with
  | zero => rfl
  | succ n ih =>
    rw [List.replicate_succ, activeNames, List.filterMap_cons]
    have : (if zeroSlot.port ≠ 0 then zeroSlot.name else none) = none := by
      rw [if_neg]
      intro h
      exact h rfl
    rw [this]
    exact ih

theorem activeNames_append (l1 l2 : List dns_sd_service_t) :
    activeNames (l1 ++ l2) = activeNames l1 ++ activeNames l2 := by
  rw [activeNames, activeNames, activeNames, List.filterMap_append]

theorem activeNames_kiss (mc : misc_config_s) (hostname : List Char) :
    activeNames (kiss_services mc hostname) =
      (active_kiss_channels mc).map
        (fun c => make_service_name mc.dns_sd_name hostname c) := by
  rw [activeNames, kiss_services, active_kiss_channels]
  generalize mc.kiss_port.zip mc.kiss_chan = l
  induction l with
  | nil => rfl
  | cons pc l ih =>
    rw [List.filterMap_cons, List.filterMap_cons]
    by_cases hp : pc.1 ≠ 0
    · rw [if_pos hp, if_pos hp]
      dsimp only
      rw [List.filterMap_cons]
      rw [if_pos hp]
      rw [ih]
      rfl
    · rw [if_neg hp, if_neg hp]
      exact ih

theorem activeNames_create (mc : misc_config_s) (hostname : List Char)
    (hagw : mc.agwpe_port ≠ 0) :
    activeNames (dns_sd_create_context mc hostname) =
      make_service_name mc.dns_sd_name hostname (-1) ::
        (active_kiss_channels mc).map
          (fun c => make_service_name mc.dns_sd_name hostname c) := by
  rw [dns_sd_create_context]
  rw [if_pos hagw, activeNames, List.filterMap_cons]
  dsimp only
  rw [if_pos hagw]
  have : List.filterMap
      (fun s => if s.port ≠ 0 then s.name else none)
      (kiss_services mc hostname ++
        List.replicate (MAX_KISS_TCP_PORTS mc -
          (kiss_services mc hostname).length) zeroSlot) =
      activeNames (kiss_services mc hostname) := by
    rw [show (List.filterMap (fun s => if s.port ≠ 0 then s.name else none)
        (kiss_services mc hostname ++ List.replicate (MAX_KISS_TCP_PORTS mc -
          (kiss_services mc hostname).length) zeroSlot)) =
      activeNames (kiss_services mc hostname ++
        List.replicate (MAX_KISS_TCP_PORTS mc -
          (kiss_services mc hostname).length) zeroSlot) from rfl]
    rw [activeNames_append, activeNames_replicate, List.append_nil]
  rw [this, activeNames_kiss]

/-- Claim C4 (amended): for every configuration with a non-zero primary
port and parallel KISS arrays, the batch has exactly
`dns_sd_service_count` active slots (non-zero port, non-null name) and
`MAX_DNS_SD_SERVICES - dns_sd_service_count` inert all-zero slots; and
the active names are pairwise distinct PROVIDED the configured KISS
channels are distinct as rendered (no two render to the same digit
string), none is the -1 sentinel, and basename and hostname are short
enough that no name is truncated.  (Without the proviso the claim is
false — see the counterexample.) -/
theorem create_context_batch_shape (mc : misc_config_s)
    (hostname : List Char)
    (hlen : mc.kiss_chan.length = mc.kiss_port.length)
    (hagw : mc.agwpe_port ≠ 0) :
    (dns_sd_create_context mc hostname).length = MAX_DNS_SD_SERVICES mc ∧
    (dns_sd_create_context mc hostname).countP
        (fun s => s.port != 0 && s.name.isSome) = dns_sd_service_count mc ∧
    (dns_sd_create_context mc hostname).countP
        (fun s => s.port == 0 && s.name.isNone) =
      MAX_DNS_SD_SERVICES mc - dns_sd_service_count mc ∧
    (mc.dns_sd_name.length ≤ 40 → hostname.length ≤ 50 →
      (∀ c ∈ active_kiss_channels mc, c ≠ -1 ∧
        1 ≤ (toString c).data.length ∧ (toString c).data.length ≤ 11) →
      ((active_kiss_channels mc).map (fun c => (toString c).data)).Nodup →
      (activeNames (dns_sd_create_context mc hostname)).Nodup) := by
  have hksl := kiss_services_length mc hostname hlen
  have hkle : (kiss_services mc hostname).length ≤ MAX_KISS_TCP_PORTS mc := by
    rw [hksl, MAX_KISS_TCP_PORTS]
    exact List.countP_le_length _
  have hN : dns_sd_service_count mc =
      1 + mc.kiss_port.countP (fun p => p != 0) := by
    rw [dns_sd_service_count, if_pos hagw]
  refine ⟨?_, ?_, ?_, ?_⟩
  · rw [dns_sd_create_context]
    simp only [List.length_cons, List.length_append, List.length_replicate]
    rw [MAX_DNS_SD_SERVICES]
    omega
  · rw [dns_sd_create_context]
    rw [if_pos hagw, List.countP_cons, List.countP_append]
    have hks : (kiss_services mc hostname).countP
        (fun s => s.port != 0 && s.name.isSome) =
        (kiss_services mc hostname).length := by
      apply countP_eq_length_of_all
      intro s hs
      have := kiss_services_active mc hostname s hs
      simp [this.1, this.2]
    have hrep : (List.replicate (MAX_KISS_TCP_PORTS mc -
        (kiss_services mc hostname).length) zeroSlot).countP
        (fun s => s.port != 0 && s.name.isSome) = 0 := by
      rw [countP_replicate]
      simp [zeroSlot]
    rw [hks, hrep, hksl, hN]
    simp [hagw]
    omega
  · rw [dns_sd_create_context]
    rw [if_pos hagw, List.countP_cons, List.countP_append]
    have hks : (kiss_services mc hostname).countP
        (fun s => s.port == 0 && s.name.isNone) = 0 := by
      rw [List.countP_eq_zero]
      intro s hs
      have := kiss_services_active mc hostname s hs
      simp [this.1]
    have hrep : (List.replicate (MAX_KISS_TCP_PORTS mc -
        (kiss_services mc hostname).length) zeroSlot).countP
        (fun s => s.port == 0 && s.name.isNone) =
        MAX_KISS_TCP_PORTS mc - (kiss_services mc hostname).length := by
      rw [countP_replicate]
      simp [zeroSlot]
    rw [hks, hrep, MAX_DNS_SD_SERVICES, hN, hksl]
    simp
    omega
  · intro hb hh hch hnd
    rw [activeNames_create mc hostname hagw]
    rw [List.nodup_cons]
    have hone : ((toString (-1 : Int)).data).length ≤ 11 := by decide
    constructor
    · intro hmem
      obtain ⟨c, hc, hfc⟩ := List.mem_map.mp hmem
      rw [make_service_name_untrunc mc.dns_sd_name hostname c hb hh
            (hch c hc).2.2,
          make_service_name_untrunc mc.dns_sd_name hostname (-1) hb hh hone,
          if_pos (hch c hc).1,
          if_neg (show ¬((-1 : Int) ≠ -1) from fun h => h rfl)] at hfc
      have hlen2 := congrArg List.length hfc
      simp only [List.length_append, List.length_nil] at hlen2
      have h9 : (" channel ".data).length = 9 := by decide
      rw [h9] at hlen2
      have := (hch c hc).2.1
      omega
    · have hmapeq : (active_kiss_channels mc).map
          (fun c => make_service_name mc.dns_sd_name hostname c) =
          ((active_kiss_channels mc).map (fun c => (toString c).data)).map
            (fun r => baseOf mc.dns_sd_name ++ (" channel ".data ++ r) ++
              (if hostname ≠ [] then " on ".data ++ hostname else [])) := by
        rw [List.map_map]
        apply List.map_congr_left
        intro c hc
        rw [make_service_name_untrunc mc.dns_sd_name hostname c hb hh
              (hch c hc).2.2,
            if_pos (hch c hc).1]
        rfl
      rw [hmapeq]
      apply List.Nodup.map
      · intro r1 r2 hr
        have hr' : (baseOf mc.dns_sd_name ++ " channel ".data) ++
            (r1 ++ (if hostname ≠ [] then " on ".data ++ hostname else [])) =
            (baseOf mc.dns_sd_name ++ " channel ".data) ++
            (r2 ++ (if hostname ≠ [] then " on ".data ++ hostname else [])) := by
          simpa [List.append_assoc] using hr
        exact List.append_cancel_right (List.append_cancel_left hr')
      · exact hnd

/-- A concrete configuration with distinct KISS channels (0 and 1). -/
def mcD : misc_config_s := ⟨8000, [], [8001, 8011, 0], [0, 1, 5]⟩

/-- Witness for the amended C4 at `mcD`: 3 active slots, 1 inert slot,
distinct names. -/
theorem create_context_batch_shape_witness :
    (dns_sd_create_context mcD "myhost".data).length =
      MAX_DNS_SD_SERVICES mcD ∧
    (dns_sd_create_context mcD "myhost".data).countP
        (fun s => s.port != 0 && s.name.isSome) = dns_sd_service_count mcD ∧
    (dns_sd_create_context mcD "myhost".data).countP
        (fun s => s.port == 0 && s.name.isNone) =
      MAX_DNS_SD_SERVICES mcD - dns_sd_service_count mcD ∧
    (activeNames (dns_sd_create_context mcD "myhost".data)).Nodup := by
  have h := create_context_batch_shape mcD "myhost".data (by decide) (by decide)
  exact ⟨h.1, h.2.1, h.2.2.1,
    h.2.2.2 (by decide) (by decide) (by decide) (by decide)⟩
